import Mathlib

/-!
Verification of the XML link extractor in
`src/alipour/crawler_practice_with_playwright/test1.py`.

The Python function `extract_links_from_xml(xml_source, is_url, custom_tags,
custom_attrs)` fetches (or reads) an XML document, parses it, recursively
collects candidate links from recognized attributes and recognized tags'
text into a set, and returns the sorted list of that set; any exception is
caught and turned into `[]`.

The embedding below models the parsed XML tree (`XMLElement`, matching
`xml.etree.ElementTree`'s view: qualified tag, attribute dictionary, text
before the first child, ordered children), the recursive collector
`find_links`, and the outer function `extract_links_from_xml` where the
outcome of the I/O fetch + parse step is passed in explicitly as a
`FetchOutcome` (the function body from the first `except` on is pure).
-/

namespace Crawler

/-- An XML element as seen through `xml.etree.ElementTree`:
`tag` is the fully qualified tag (a namespaced tag reads
`\x7buri\x7dlocal`), `attrib` the attribute dictionary in document order,
`text` the text before the first child (`None` when absent), and
`children` the ordered child elements. -/
structure XMLElement where
  tag : String
  attrib : List (String × String)
  text : Option String
  children : List XMLElement

/-- The sitemap namespace URI (line 28 of the source). -/
def sitemapNS : String := "http://www.sitemaps.org/schemas/sitemap/0.9"

/-- `f"\x7bhttp://www.sitemaps.org/schemas/sitemap/0.9\x7d{tag}"` from
line 66: the fully qualified form of a tag in the sitemap namespace. -/
def qualTag (tag : String) : String := "\x7b" ++ sitemapNS ++ "\x7d" ++ tag

/-- `element.tag.split('\x7d')[-1]` (line 51): the local tag name with any
`\x7buri\x7d` namespace prefix stripped — everything after the last
closing brace (the whole tag when there is none). -/
def localName (tag : String) : String :=
  ⟨(tag.data.reverse.takeWhile fun c => c ≠ '\x7d').reverse⟩

/-- Python's `str.isspace` / `str.strip()` whitespace class (used by
`element.text.strip()` on lines 67-69). -/
def pySpace (c : Char) : Bool :=
  let n := c.toNat
  n = 0x20 || (0x09 <= n && n <= 0x0d) || (0x1c <= n && n <= 0x1f) ||
  n = 0x85 || n = 0xa0 || n = 0x1680 || (0x2000 <= n && n <= 0x200a) ||
  n = 0x2028 || n = 0x2029 || n = 0x202f || n = 0x205f || n = 0x3000

/-- Python's `str.strip()`: drop leading and trailing whitespace. -/
def pyStrip (s : String) : String :=
  ⟨((s.data.dropWhile pySpace).reverse.dropWhile pySpace).reverse⟩

/-- `default_tags = ['loc', 'a', 'link', 'url']` (line 20). -/
def default_tags : List String := ["loc", "a", "link", "url"]

/-- `default_attrs = ['href', 'src', 'url']` (line 21). -/
def default_attrs : List String := ["href", "src", "url"]

/-- `link_tags = default_tags + (custom_tags or [])` (line 24); `none`
models Python `None`. -/
def linkTags (custom_tags : Option (List String)) : List String :=
  default_tags ++ custom_tags.getD []

/-- `link_attributes = default_attrs + (custom_attrs or [])` (line 25). -/
def linkAttributes (custom_attrs : Option (List String)) : List String :=
  default_attrs ++ custom_attrs.getD []

/-! ### Model of Python `urllib.parse.urljoin`

`find_links` (line 61) resolves attribute-sourced links with
`urljoin(xml_source, link)`. `urljoin` is Python standard-library code, not
code of this repository, so it is modelled here following the algorithm of
CPython's `urllib/parse.py`, specialised to URLs without query or fragment
parts (the query/fragment, when present, stay glued to the path component;
no claim exercises them). -/

/-- Characters a URL is cleansed of anywhere before splitting
(CPython `_UNSAFE_URL_BYTES_TO_REMOVE`). -/
def urlRemovedChar (c : Char) : Bool := c = '\t' || c = '\r' || c = '\n'

/-- C0-control-or-space characters stripped from both ends of a URL before
splitting (CPython `urlsplit`). -/
def urlStripChar (c : Char) : Bool := c.toNat <= 0x20

/-- The cleansing `urlsplit` applies to its input string. -/
def cleanUrl (s : String) : String :=
  let l := s.data.filter (fun c => !(urlRemovedChar c))
  ⟨((l.dropWhile urlStripChar).reverse.dropWhile urlStripChar).reverse⟩

/-- A split URL: scheme, network location, and the rest (path, with any
query/fragment left attached). -/
structure UrlParts where
  scheme : String
  netloc : String
  path : String
deriving DecidableEq

/-- Valid characters of a URL scheme after the leading letter. -/
def schemeChar (c : Char) : Bool := c.isAlphanum || c = '+' || c = '-' || c = '.'

/-- Split a character list at its first colon, when there is one. -/
def breakAtColon : List Char → Option (List Char × List Char)
  | [] => none
  | c :: cs =>
    if c = ':' then some ([], cs)
    else (breakAtColon cs).map fun p => (c :: p.1, p.2)

/-- Split a leading `scheme:` off a URL, lowercasing it, exactly when the
prefix before the first colon is a well-formed scheme name. -/
def splitScheme (s : String) : String × String :=
  match breakAtColon s.data with
  | none => ("", s)
  | some (head, rest) =>
    if !head.isEmpty && head.all schemeChar && (head.headD 'a').isAlpha then
      (⟨head.map Char.toLower⟩, ⟨rest⟩)
    else ("", s)

/-- Model of CPython `urlsplit` (query/fragment folded into `path`). -/
def urlsplit (s : String) : UrlParts :=
  let s := cleanUrl s
  let (scheme, rest) := splitScheme s
  match rest.data with
  | '/' :: '/' :: r =>
    ⟨scheme, ⟨r.takeWhile fun c => c ≠ '/'⟩, ⟨r.dropWhile fun c => c ≠ '/'⟩⟩
  | _ => ⟨scheme, "", rest⟩

/-- Model of CPython `urlunsplit` on the parts tracked here. -/
def urlunsplit (u : UrlParts) : String :=
  (if u.scheme ≠ "" then u.scheme ++ ":" else "") ++
  (if u.netloc ≠ "" then "//" ++ u.netloc else "") ++ u.path

/-- Schemes for which relative resolution applies (CPython `uses_relative`). -/
def usesRelative (s : String) : Bool :=
  ["", "ftp", "http", "gopher", "nntp", "imap", "wais", "file", "https",
   "shttp", "mms", "prospero", "rtsp", "rtspu", "sftp", "svn", "svn+ssh",
   "ws", "wss"].contains s

/-- Schemes that carry a network location (CPython `uses_netloc`). -/
def usesNetloc (s : String) : Bool :=
  ["", "ftp", "http", "gopher", "nntp", "telnet", "imap", "wais", "file",
   "mms", "https", "shttp", "snews", "prospero", "rtsp", "rtspu", "rsync",
   "svn", "svn+ssh", "sftp", "nfs", "git", "git+ssh", "ws", "wss",
   "itms-services"].contains s

/-- `path.split('/')` on character lists. -/
def splitOnSlash : List Char → List (List Char)
  | [] => [[]]
  | c :: cs =>
    if c = '/' then [] :: splitOnSlash cs
    else
      match splitOnSlash cs with
      | [] => [[c]]
      | p :: ps => (c :: p) :: ps

/-- `'/'.join(...)` on character lists. -/
def joinSlash : List (List Char) → List Char
  | [] => []
  | [x] => x
  | x :: xs => x ++ '/' :: joinSlash xs

/-- The dot-segment resolution loop of CPython `urljoin`. -/
def resolveSegments (segments : List (List Char)) : List (List Char) :=
  let resolved := segments.foldl
    (fun acc seg =>
      if seg = ['.', '.'] then acc.dropLast
      else if seg = ['.'] then acc
      else acc ++ [seg]) ([] : List (List Char))
  if segments.getLastD [] = ['.'] || segments.getLastD [] = ['.', '.'] then
    resolved ++ [[]]
  else resolved

/-- Model of CPython `urllib.parse.urljoin` (standard relative-URL
resolution), restricted to URLs without separate query/fragment parts. -/
def urljoin (base url : String) : String :=
  if base = "" then url
  else if url = "" then base
  else
    let b := urlsplit base
    let u := urlsplit url
    let scheme := if u.scheme = "" then b.scheme else u.scheme
    if scheme ≠ b.scheme || !(usesRelative scheme) then url
    else if usesNetloc scheme && u.netloc ≠ "" then
      urlunsplit ⟨scheme, u.netloc, u.path⟩
    else
      let netloc := if usesNetloc scheme then b.netloc else u.netloc
      if u.path = "" then urlunsplit ⟨scheme, netloc, b.path⟩
      else
        let baseParts := splitOnSlash b.path.data
        let baseParts :=
          if baseParts.getLastD [] ≠ [] then baseParts.dropLast else baseParts
        let segments :=
          match u.path.data with
          | '/' :: _ => splitOnSlash u.path.data
          | _ =>
            match baseParts ++ splitOnSlash u.path.data with
            | [] => []
            | x :: xs =>
              match xs.getLast? with
              | none => [x]
              | some last =>
                x :: (xs.dropLast.filter (fun seg => !seg.isEmpty) ++ [last])
        let rpath := joinSlash (resolveSegments segments)
        urlunsplit ⟨scheme, netloc, if rpath.isEmpty then "/" else ⟨rpath⟩⟩

/-! ### The recursive link collector `find_links` (lines 49-73)

The Python function mutates an enclosing set `links`; the model collects
the same added values as a list in traversal order (set-ness and ordering
are restored by `sortedUnique` below, mirroring `sorted(list(links))` on
line 78). -/

/-- Line 61: an attribute-sourced link is resolved against `xml_source`
with `urljoin` exactly when `is_url` is true. -/
def processLink (is_url : Bool) (xml_source link : String) : String :=
  if is_url then urljoin xml_source link else link

/-- The attribute loop (lines 55-62): for each name in `link_attributes`
present in `element.attrib` with a non-empty value, add the (possibly
resolved) value. -/
def attrLinksOf (is_url : Bool) (xml_source : String)
    (link_attributes : List String) (e : XMLElement) : List String :=
  link_attributes.filterMap fun attr =>
    (e.attrib.lookup attr).bind fun link =>
      if link ≠ "" then some (processLink is_url xml_source link) else none

/-- The tag loop (lines 65-69): for each name in `link_tags` matching the
element's local tag name or its sitemap-qualified form, when the element
has text whose strip is non-empty, add the stripped text (verbatim). -/
def tagLinksOf (link_tags : List String) (e : XMLElement) : List String :=
  link_tags.filterMap fun tag =>
    if localName e.tag = tag ∨ e.tag = qualTag tag then
      e.text.bind fun t =>
        if t ≠ "" ∧ pyStrip t ≠ "" then some (pyStrip t) else none
    else none

mutual
/-- `find_links` (lines 49-73): attribute links, then tag links, then the
children, depth-first. -/
def find_links (is_url : Bool) (xml_source : String)
    (link_attributes link_tags : List String) : XMLElement → List String
  | .mk tag attrib text children =>
      attrLinksOf is_url xml_source link_attributes ⟨tag, attrib, text, children⟩ ++
      tagLinksOf link_tags ⟨tag, attrib, text, children⟩ ++
      find_links_list is_url xml_source link_attributes link_tags children

/-- The child loop of `find_links` (lines 72-73). -/
def find_links_list (is_url : Bool) (xml_source : String)
    (link_attributes link_tags : List String) : List XMLElement → List String
  | [] => []
  | e :: es =>
      find_links is_url xml_source link_attributes link_tags e ++
      find_links_list is_url xml_source link_attributes link_tags es
end

/-- Python's comparison of `str` values, on the underlying code-point
lists: lexicographic, heads first. -/
def strLeAux : List Char → List Char → Bool
  | [], _ => true
  | _ :: _, [] => false
  | a :: as, b :: bs =>
    if a < b then true
    else if b < a then false
    else strLeAux as bs

/-- `a <= b` for Python strings (code-point lexicographic order). -/
def strLe (a b : String) : Bool := strLeAux a.data b.data

/-- `sorted(list(links))` (line 78): Python sorts the set of collected
strings ascending by code points; the model deduplicates the collected
list and sorts it with the same lexicographic order (`strLe`, shown below
to agree with the order on `String`). -/
def sortedUnique (l : List String) : List String :=
  List.insertionSort (fun a b => strLe a b = true) l.dedup

/-- Outcome of the effectful fetch + parse prefix of
`extract_links_from_xml` (lines 32-46), which the pure model takes as an
argument: either the parsed root element, or the exception that the
corresponding `except` arm (lines 80-91) catches.
`otherError` stands for any exception other than the three named ones,
caught by the catch-all `except Exception` arm (lines 89-91). -/
inductive FetchOutcome where
  | ok (root : XMLElement)
  | fetchError
  | parseError
  | fileNotFound
  | otherError

/-- `extract_links_from_xml` (lines 8-91) after fetch + parse is made
explicit: merge default and custom tags/attributes, collect links from the
root, return them sorted and unique; every failure outcome returns `[]`. -/
def extract_links_from_xml (outcome : FetchOutcome) (is_url : Bool)
    (xml_source : String)
    (custom_tags custom_attrs : Option (List String)) : List String :=
  let link_tags := linkTags custom_tags
  let link_attributes := linkAttributes custom_attrs
  match outcome with
  | .ok root => sortedUnique (find_links is_url xml_source link_attributes link_tags root)
  | .fetchError => []
  | .parseError => []
  | .fileNotFound => []
  | .otherError => []

mutual
/-- All elements of the tree rooted at an element, in depth-first order. -/
def treeElements : XMLElement → List XMLElement
  | .mk tag attrib text children =>
      ⟨tag, attrib, text, children⟩ :: treeElementsList children

/-- All elements of the trees rooted in a list of elements. -/
def treeElementsList : List XMLElement → List XMLElement
  | [] => []
  | e :: es => treeElements e ++ treeElementsList es
end

/-- The tag-match test of line 66, as a Boolean over the whole tag list. -/
def tagMatch (link_tags : List String) (tag : String) : Bool :=
  link_tags.any fun t => localName tag == t || tag == qualTag t

/-- An element that can contribute nothing: it carries none of the
recognized attributes, and it either fails the tag test of line 66 or has
no non-empty-after-strip text. -/
def noCandidate (link_attributes link_tags : List String)
    (e : XMLElement) : Bool :=
  (link_attributes.all fun a => (e.attrib.lookup a).isNone) &&
  (!(tagMatch link_tags e.tag) ||
    e.text.elim true fun t => pyStrip t == "")

/-! ### Helper lemmas -/

theorem pyStrip_of_empty : pyStrip "" = "" := rfl

/-- Membership in the attribute-loop output. -/
theorem mem_attrLinksOf {is_url : Bool} {xml_source : String}
    {link_attributes : List String} {e : XMLElement} {x : String} :
    x ∈ attrLinksOf is_url xml_source link_attributes e ↔
      ∃ a ∈ link_attributes, ∃ v, e.attrib.lookup a = some v ∧ v ≠ "" ∧
        x = processLink is_url xml_source v := by
  simp only [attrLinksOf, List.mem_filterMap, Option.bind_eq_some]
  constructor
  · rintro ⟨a, ha, v, hv, hif⟩
    by_cases h : v = ""
    · simp [h] at hif
    · rw [if_pos h] at hif
      exact ⟨a, ha, v, hv, h, ((Option.some.injEq _ _).mp hif).symm⟩
  · rintro ⟨a, ha, v, hv, hne, hx⟩
    exact ⟨a, ha, v, hv, by simp [hne, hx]⟩

/-- Membership in the tag-loop output. -/
theorem mem_tagLinksOf {link_tags : List String} {e : XMLElement} {x : String} :
    x ∈ tagLinksOf link_tags e ↔
      (∃ t ∈ link_tags, localName e.tag = t ∨ e.tag = qualTag t) ∧
      ∃ txt, e.text = some txt ∧ pyStrip txt ≠ "" ∧ x = pyStrip txt := by
  simp only [tagLinksOf, List.mem_filterMap]
  constructor
  · rintro ⟨t, ht, hft⟩
    by_cases hm : localName e.tag = t ∨ e.tag = qualTag t
    · rw [if_pos hm, Option.bind_eq_some] at hft
      rcases hft with ⟨txt, htxt, hif⟩
      by_cases hc : txt ≠ "" ∧ pyStrip txt ≠ ""
      · rw [if_pos hc] at hif
        exact ⟨⟨t, ht, hm⟩, txt, htxt, hc.2, ((Option.some.injEq _ _).mp hif).symm⟩
      · rw [if_neg hc] at hif; exact absurd hif (by simp)
    · rw [if_neg hm] at hft; exact absurd hft (by simp)
  · rintro ⟨⟨t, ht, hm⟩, txt, htxt, hs, hx⟩
    have hne : txt ≠ "" := fun h => hs (by rw [h, pyStrip_of_empty])
    exact ⟨t, ht, by rw [if_pos hm, htxt]; simp [hne, hs, hx]⟩

mutual
/-- A string is collected by `find_links` exactly when some element of the
tree produces it via the attribute loop or the tag loop. -/
theorem mem_find_links (is_url : Bool) (xml_source : String)
    (link_attributes link_tags : List String) (x : String) :
    (e : XMLElement) →
      (x ∈ find_links is_url xml_source link_attributes link_tags e ↔
        ∃ e' ∈ treeElements e,
          x ∈ attrLinksOf is_url xml_source link_attributes e' ∨
          x ∈ tagLinksOf link_tags e')
  | .mk tag attrib text children => by
      rw [find_links, treeElements]
      simp only [List.mem_append, List.mem_cons,
        mem_find_links_list is_url xml_source link_attributes link_tags x children]
      constructor
      · rintro ((h | h) | ⟨e', he', h⟩)
        · exact ⟨⟨tag, attrib, text, children⟩, Or.inl rfl, Or.inl h⟩
        · exact ⟨⟨tag, attrib, text, children⟩, Or.inl rfl, Or.inr h⟩
        · exact ⟨e', Or.inr he', h⟩
      · rintro ⟨e', (rfl | he'), h⟩
        · rcases h with h | h
          · exact Or.inl (Or.inl h)
          · exact Or.inl (Or.inr h)
        · exact Or.inr ⟨e', he', h⟩

/-- List version of `mem_find_links`, for the child loop. -/
theorem mem_find_links_list (is_url : Bool) (xml_source : String)
    (link_attributes link_tags : List String) (x : String) :
    (l : List XMLElement) →
      (x ∈ find_links_list is_url xml_source link_attributes link_tags l ↔
        ∃ e' ∈ treeElementsList l,
          x ∈ attrLinksOf is_url xml_source link_attributes e' ∨
          x ∈ tagLinksOf link_tags e')
  | [] => by simp [find_links_list, treeElementsList]
  | e :: es => by
      rw [find_links_list, treeElementsList]
      simp only [List.mem_append,
        mem_find_links is_url xml_source link_attributes link_tags x e,
        mem_find_links_list is_url xml_source link_attributes link_tags x es]
      constructor
      · rintro (⟨e', he', h⟩ | ⟨e', he', h⟩)
        · exact ⟨e', Or.inl he', h⟩
        · exact ⟨e', Or.inr he', h⟩
      · rintro ⟨e', (he' | he'), h⟩
        · exact Or.inl ⟨e', he', h⟩
        · exact Or.inr ⟨e', he', h⟩
end

/-- `sorted(list(links))` keeps exactly the collected strings. -/
theorem mem_sortedUnique {l : List String} {x : String} :
    x ∈ sortedUnique l ↔ x ∈ l := by
  rw [sortedUnique, (List.perm_insertionSort _ _).mem_iff, List.mem_dedup]

/-- The output of `sortedUnique` has no duplicates. -/
theorem sortedUnique_nodup (l : List String) : (sortedUnique l).Nodup :=
  (List.perm_insertionSort _ _).nodup_iff.mpr l.nodup_dedup

/-- `strLe` agrees with the lexicographic order on `String`, on the
underlying code-point lists. -/
theorem strLeAux_iff_not_lex :
    ∀ as bs : List Char, strLeAux as bs = true ↔ ¬ List.Lex (· < ·) bs as
  | [], [] => iff_of_true rfl fun h => nomatch h
  | [], _ :: _ => iff_of_true rfl fun h => nomatch h
  | a :: as, [] =>
    iff_of_false (by simp [strLeAux]) (not_not_intro List.Lex.nil)
  | a :: as, b :: bs => by
    rw [strLeAux]
    rcases lt_trichotomy a b with h | h | h
    · rw [if_pos h]
      refine iff_of_true rfl fun hlt => ?_
      cases hlt with
      | cons h' => exact absurd h (lt_irrefl _)
      | rel h' => exact absurd h (asymm h')
    · subst h
      rw [if_neg (lt_irrefl a), if_neg (lt_irrefl a),
        strLeAux_iff_not_lex as bs]
      constructor
      · intro hn hlt
        cases hlt with
        | cons h' => exact hn h'
        | rel h' => exact absurd h' (lt_irrefl a)
      · exact fun hn hlt => hn (List.Lex.cons hlt)
    · rw [if_neg (asymm h), if_pos h]
      exact iff_of_false (by simp) (not_not_intro (List.Lex.rel h))

/-- `strLe` decides the order `≤` on `String`. -/
theorem strLe_iff {a b : String} : strLe a b = true ↔ a ≤ b := by
  rw [String.le_iff_toList_le, ← not_lt]
  show strLeAux a.data b.data = true ↔ ¬ List.Lex (· < ·) b.data a.data
  exact strLeAux_iff_not_lex a.data b.data

/-- The output of `sortedUnique` is sorted ascending. -/
theorem sortedUnique_sorted (l : List String) :
    List.Sorted (· ≤ ·) (sortedUnique l) := by
  haveI : IsTotal String (fun a b => strLe a b = true) :=
    ⟨fun a b => by
      rcases le_total a b with h | h
      · exact Or.inl (strLe_iff.mpr h)
      · exact Or.inr (strLe_iff.mpr h)⟩
  haveI : IsTrans String (fun a b => strLe a b = true) :=
    ⟨fun a b c hab hbc => strLe_iff.mpr (le_trans (strLe_iff.mp hab) (strLe_iff.mp hbc))⟩
  exact (List.sorted_insertionSort _ _).imp fun h => strLe_iff.mp h

/-- Membership in a successful extraction, phrased over the source tree. -/
theorem mem_extract {outcome_root : XMLElement} {is_url : Bool}
    {xml_source : String} {custom_tags custom_attrs : Option (List String)}
    {x : String} :
    x ∈ extract_links_from_xml (.ok outcome_root) is_url xml_source
          custom_tags custom_attrs ↔
      ∃ e ∈ treeElements outcome_root,
        x ∈ attrLinksOf is_url xml_source (linkAttributes custom_attrs) e ∨
        x ∈ tagLinksOf (linkTags custom_tags) e := by
  rw [extract_links_from_xml]
  exact mem_sortedUnique.trans (mem_find_links _ _ _ _ _ _)

/-- The Boolean `tagMatch` decides the disjunctive tag test of line 66. -/
theorem tagMatch_iff {link_tags : List String} {tag : String} :
    tagMatch link_tags tag = true ↔
      ∃ t ∈ link_tags, localName tag = t ∨ tag = qualTag t := by
  simp [tagMatch, List.any_eq_true]

/-- `filterMap` of a constant-valued guard is a `map` over `filter`. -/
theorem filterMap_const_if {α β : Type} (p : α → Prop) [DecidablePred p] (c : β) :
    ∀ l : List α,
      (l.filterMap fun a => if p a then some c else none) =
      (l.filter fun a => decide (p a)).map fun _ => c
  | [] => rfl
  | a :: l => by
    by_cases h : p a
    · rw [@List.filterMap_cons_some _ _
          (fun x => if p x then some c else none) a l c (by simp [h]),
        List.filter_cons_of_pos (by simpa using h), List.map_cons,
        filterMap_const_if p c l]
    · rw [@List.filterMap_cons_none _ _
          (fun x => if p x then some c else none) a l (by simp [h]),
        List.filter_cons_of_neg (by simpa using h), filterMap_const_if p c l]

/-! ### Claims -/

/-- C1: with a URL source (`is_url = true`), every attribute-sourced
candidate is resolved against the source URL with `urljoin` before being
added, while every text-sourced candidate is added verbatim; concretely,
`<a href="/page">` with source URL `https://example.com/index.xml`
extracts `["https://example.com/page"]`, and
`<link>https://example.com/feed-item</link>` with the same source extracts
`["https://example.com/feed-item"]` unresolved. -/
theorem C1_url_resolution_asymmetry :
    (∀ (xml_source : String) (custom_tags custom_attrs : Option (List String))
       (root : XMLElement) (x : String),
      x ∈ extract_links_from_xml (.ok root) true xml_source custom_tags custom_attrs ↔
        ((∃ e ∈ treeElements root, ∃ a ∈ linkAttributes custom_attrs, ∃ v,
            e.attrib.lookup a = some v ∧ v ≠ "" ∧ x = urljoin xml_source v) ∨
         (∃ e ∈ treeElements root,
            (∃ t ∈ linkTags custom_tags, localName e.tag = t ∨ e.tag = qualTag t) ∧
            ∃ txt, e.text = some txt ∧ pyStrip txt ≠ "" ∧ x = pyStrip txt))) ∧
    extract_links_from_xml (.ok ⟨"a", [("href", "/page")], none, []⟩) true
      "https://example.com/index.xml" none none = ["https://example.com/page"] ∧
    extract_links_from_xml
      (.ok ⟨"link", [], some "https://example.com/feed-item", []⟩) true
      "https://example.com/index.xml" none none
      = ["https://example.com/feed-item"] := by
  refine ⟨fun xml_source ct ca root x => ?_, by decide, by decide⟩
  rw [mem_extract]
  constructor
  · rintro ⟨e, he, h | h⟩
    · rcases mem_attrLinksOf.mp h with ⟨a, ha, v, hv, hne, hx⟩
      exact Or.inl ⟨e, he, a, ha, v, hv, hne, hx⟩
    · rcases mem_tagLinksOf.mp h with ⟨hm, txt, htxt, hs, hx⟩
      exact Or.inr ⟨e, he, hm, txt, htxt, hs, hx⟩
  · rintro (⟨e, he, a, ha, v, hv, hne, hx⟩ | ⟨e, he, hm, txt, htxt, hs, hx⟩)
    · exact ⟨e, he, Or.inl (mem_attrLinksOf.mpr ⟨a, ha, v, hv, hne, hx⟩)⟩
    · exact ⟨e, he, Or.inr (mem_tagLinksOf.mpr ⟨hm, txt, htxt, hs, hx⟩)⟩

/-- C2: fetch failures (network error, missing file) and parse failures
are converted to `[]` at the call boundary, the same value a link-free
document yields, so the return value alone cannot distinguish the two. -/
theorem C2_failures_yield_empty :
    ∀ (is_url : Bool) (xml_source : String)
      (custom_tags custom_attrs : Option (List String)),
      extract_links_from_xml .fetchError is_url xml_source custom_tags
        custom_attrs = [] ∧
      extract_links_from_xml .fileNotFound is_url xml_source custom_tags
        custom_attrs = [] ∧
      extract_links_from_xml .parseError is_url xml_source custom_tags
        custom_attrs = [] ∧
      extract_links_from_xml (.ok ⟨"rss", [], none, []⟩) is_url xml_source
        custom_tags custom_attrs = [] := by
  intro is_url xml_source ct ca
  refine ⟨rfl, rfl, rfl, ?_⟩
  refine List.eq_nil_iff_forall_not_mem.mpr fun x hx => ?_
  rcases mem_extract.mp hx with ⟨e, he, h⟩
  rw [treeElements, treeElementsList] at he
  obtain rfl := List.mem_singleton.mp he
  rcases h with h | h
  · rcases mem_attrLinksOf.mp h with ⟨a, -, v, hv, -, -⟩
    exact absurd hv (by simp)
  · rcases mem_tagLinksOf.mp h with ⟨-, txt, htxt, -, -⟩
    exact absurd htxt (by simp)

/-- C3: for every parsed document, the returned list has no duplicate
strings and is sorted ascending in the lexicographic order on strings. -/
theorem C3_nodup_sorted :
    ∀ (root : XMLElement) (is_url : Bool) (xml_source : String)
      (custom_tags custom_attrs : Option (List String)),
      (extract_links_from_xml (.ok root) is_url xml_source custom_tags
        custom_attrs).Nodup ∧
      List.Sorted (· ≤ ·)
        (extract_links_from_xml (.ok root) is_url xml_source custom_tags
          custom_attrs) := by
  intro root is_url xml_source ct ca
  exact ⟨sortedUnique_nodup _, sortedUnique_sorted _⟩

/-- C4: an element's text is a candidate exactly when its local tag name
is in the recognized set or its fully qualified name is the sitemap
namespace joined with a recognized name, and its trimmed text is
non-empty; concretely `<urlset><url><loc>https://example.com/a</loc></url></urlset>`
in the sitemap namespace extracts `["https://example.com/a"]`. -/
theorem C4_tag_recognition :
    (∀ (custom_tags : Option (List String)) (e : XMLElement) (x : String),
      x ∈ tagLinksOf (linkTags custom_tags) e ↔
        (∃ t ∈ linkTags custom_tags, localName e.tag = t ∨ e.tag = qualTag t) ∧
        ∃ txt, e.text = some txt ∧ pyStrip txt ≠ "" ∧ x = pyStrip txt) ∧
    extract_links_from_xml
      (.ok ⟨qualTag "urlset", [], none,
        [⟨qualTag "url", [], none,
          [⟨qualTag "loc", [], some "https://example.com/a", []⟩]⟩]⟩)
      false "" none none = ["https://example.com/a"] :=
  ⟨fun _ _ _ => mem_tagLinksOf, by decide⟩

/-- C5: caller extensions are appended to the fixed defaults (tags
`loc`, `a`, `link`, `url`; attributes `href`, `src`, `url`): with extra
tag `data-link` the text of `<data-link>https://x</data-link>` is
extracted, without it the same document yields `[]`. -/
theorem C5_custom_extensions :
    linkTags (some ["data-link"]) = ["loc", "a", "link", "url", "data-link"] ∧
    linkAttributes (some ["data-src"]) = ["href", "src", "url", "data-src"] ∧
    extract_links_from_xml (.ok ⟨"data-link", [], some "https://x", []⟩)
      false "" (some ["data-link"]) none = ["https://x"] ∧
    extract_links_from_xml (.ok ⟨"data-link", [], some "https://x", []⟩)
      false "" none none = [] :=
  ⟨rfl, rfl, by decide, by decide⟩

/-- C6: text content is stripped before the emptiness check and before
insertion: a recognized element with missing or whitespace-only text
contributes nothing, and one with surrounding whitespace contributes the
stripped string (once per matching name in the tag list). -/
theorem C6_text_trimmed :
    (∀ (link_tags : List String) (tag : String)
       (attrib : List (String × String)) (children : List XMLElement),
      tagLinksOf link_tags ⟨tag, attrib, none, children⟩ = []) ∧
    (∀ (link_tags : List String) (tag : String)
       (attrib : List (String × String)) (txt : String)
       (children : List XMLElement),
      tagLinksOf link_tags ⟨tag, attrib, some txt, children⟩ =
        if pyStrip txt = "" then []
        else (link_tags.filter fun t =>
            decide (localName tag = t ∨ tag = qualTag t)).map
          fun _ => pyStrip txt) ∧
    extract_links_from_xml
      (.ok ⟨"loc", [], some "  https://example.com/a  ", []⟩) false ""
      none none = ["https://example.com/a"] ∧
    extract_links_from_xml (.ok ⟨"loc", [], some "   ", []⟩) false "" none
      none = [] ∧
    extract_links_from_xml (.ok ⟨"loc", [], none, []⟩) false "" none
      none = [] := by
  refine ⟨?_, ?_, by decide, by decide, by decide⟩
  · intro lt tag attrib children
    simp only [tagLinksOf]
    rw [List.filterMap_eq_nil_iff]
    intro t _
    by_cases hm : localName tag = t ∨ tag = qualTag t <;> simp [hm]
  · intro lt tag attrib txt children
    by_cases hs : pyStrip txt = ""
    · rw [if_pos hs]
      simp only [tagLinksOf]
      rw [List.filterMap_eq_nil_iff]
      intro t _
      by_cases hm : localName tag = t ∨ tag = qualTag t <;> simp [hm, hs]
    · rw [if_neg hs]
      have hne : txt ≠ "" := fun h => hs (by rw [h, pyStrip_of_empty])
      have hbind : ((some txt).bind fun t =>
          if t ≠ "" ∧ pyStrip t ≠ "" then some (pyStrip t) else none)
          = some (pyStrip txt) := by simp [hne, hs]
      simp only [tagLinksOf, hbind]
      exact filterMap_const_if
        (fun t => localName tag = t ∨ tag = qualTag t) (pyStrip txt) lt

/-- C7: a parsed document in which no element carries a recognized
attribute and no element passing the recognized-tag test has non-empty
stripped text extracts the empty sequence. -/
theorem C7_no_match_empty :
    ∀ (is_url : Bool) (xml_source : String)
      (custom_tags custom_attrs : Option (List String)) (root : XMLElement),
      ((treeElements root).all
        (noCandidate (linkAttributes custom_attrs) (linkTags custom_tags)))
        = true →
      extract_links_from_xml (.ok root) is_url xml_source custom_tags
        custom_attrs = [] := by
  intro is_url xml_source ct ca root hall
  refine List.eq_nil_iff_forall_not_mem.mpr fun x hx => ?_
  rcases mem_extract.mp hx with ⟨e, he, h⟩
  have hnc := List.all_eq_true.mp hall e he
  rw [noCandidate, Bool.and_eq_true] at hnc
  rcases h with h | h
  · rcases mem_attrLinksOf.mp h with ⟨a, ha, v, hv, -, -⟩
    have hn := List.all_eq_true.mp hnc.1 a ha
    rw [hv] at hn
    exact absurd hn (by simp)
  · rcases mem_tagLinksOf.mp h with ⟨hm, txt, htxt, hs, -⟩
    have h2 := hnc.2
    rw [Bool.or_eq_true] at h2
    rcases h2 with hb | hb
    · rw [Bool.not_eq_true'] at hb
      exact absurd (tagMatch_iff.mpr hm) (by rw [hb]; simp)
    · rw [htxt] at hb
      simp only [Option.elim_some, beq_iff_eq] at hb
      exact hs hb

/-- C8: the boundary handlers cover every failure, including the final
catch-all `except Exception` arm: each non-`ok` outcome yields `[]`, and
the (total) model function never propagates an exception. -/
theorem C8_catch_all_total :
    ∀ (outcome : FetchOutcome) (is_url : Bool) (xml_source : String)
      (custom_tags custom_attrs : Option (List String)),
      (∀ root, outcome ≠ .ok root) →
      extract_links_from_xml outcome is_url xml_source custom_tags
        custom_attrs = [] := by
  intro outcome is_url xml_source ct ca h
  cases outcome with
  | ok root => exact absurd rfl (h root)
  | fetchError => rfl
  | parseError => rfl
  | fileNotFound => rfl
  | otherError => rfl

/-- C9: attribute values are never trimmed: any non-empty value, even one
made only of whitespace, is accepted as a candidate and added (resolved
when the source is a URL); only the exactly-empty value is rejected. -/
theorem C9_attr_values_untrimmed :
    (∀ (is_url : Bool) (xml_source : String)
       (custom_tags custom_attrs : Option (List String))
       (root e : XMLElement) (a v : String),
      e ∈ treeElements root → a ∈ linkAttributes custom_attrs →
      e.attrib.lookup a = some v → v ≠ "" →
      processLink is_url xml_source v ∈
        extract_links_from_xml (.ok root) is_url xml_source custom_tags
          custom_attrs) ∧
    extract_links_from_xml (.ok ⟨"a", [("href", " ")], none, []⟩) false
      "f.xml" none none = [" "] ∧
    extract_links_from_xml (.ok ⟨"a", [("href", "")], none, []⟩) false
      "f.xml" none none = [] := by
  refine ⟨?_, by decide, by decide⟩
  intro is_url xml_source ct ca root e a v he ha hv hne
  exact mem_extract.mpr
    ⟨e, he, Or.inl (mem_attrLinksOf.mpr ⟨a, ha, v, hv, hne, rfl⟩)⟩

/-- Witness for the quantified part of `C9_attr_values_untrimmed`, at the
whitespace-valued attribute `href=" "` with `is_url = false`. -/
theorem C9_attr_values_untrimmed_witness :
    (" " : String) ≠ "" ∧
    processLink false "f.xml" " " ∈
      extract_links_from_xml (.ok ⟨"a", [("href", " ")], none, []⟩) false
        "f.xml" none none :=
  ⟨by decide,
    C9_attr_values_untrimmed.1 false "f.xml" none none _ _ "href" " "
      (by rw [treeElements]; exact List.mem_cons_self _ _)
      (by decide) (by decide) (by decide)⟩

/-- C10: one element can feed both channels: a recognized attribute value
and recognized-tag text are both added, independently; concretely
`<url href="/x">https://y</url>` with a URL source yields both the
resolved attribute link and the verbatim text link. -/
theorem C10_both_channels :
    (∀ (is_url : Bool) (xml_source : String)
       (custom_tags custom_attrs : Option (List String))
       (root e : XMLElement) (a v txt : String),
      e ∈ treeElements root → a ∈ linkAttributes custom_attrs →
      e.attrib.lookup a = some v → v ≠ "" →
      tagMatch (linkTags custom_tags) e.tag = true →
      e.text = some txt → pyStrip txt ≠ "" →
      processLink is_url xml_source v ∈
        extract_links_from_xml (.ok root) is_url xml_source custom_tags
          custom_attrs ∧
      pyStrip txt ∈
        extract_links_from_xml (.ok root) is_url xml_source custom_tags
          custom_attrs) ∧
    extract_links_from_xml
      (.ok ⟨"url", [("href", "/x")], some "https://y", []⟩) true
      "https://example.com/index.xml" none none
      = ["https://example.com/x", "https://y"] := by
  refine ⟨?_, by decide⟩
  intro is_url xml_source ct ca root e a v txt he ha hv hvne hm htxt hs
  exact ⟨mem_extract.mpr
      ⟨e, he, Or.inl (mem_attrLinksOf.mpr ⟨a, ha, v, hv, hvne, rfl⟩)⟩,
    mem_extract.mpr
      ⟨e, he, Or.inr (mem_tagLinksOf.mpr
        ⟨tagMatch_iff.mp hm, txt, htxt, hs, rfl⟩)⟩⟩

/-- Witness for the quantified part of `C10_both_channels`, at the element
`<url href="/x">https://y</url>` with source `https://example.com/index.xml`. -/
theorem C10_both_channels_witness :
    ("/x" : String) ≠ "" ∧ pyStrip "https://y" ≠ "" ∧
    (processLink true "https://example.com/index.xml" "/x" ∈
      extract_links_from_xml
        (.ok ⟨"url", [("href", "/x")], some "https://y", []⟩) true
        "https://example.com/index.xml" none none ∧
    pyStrip "https://y" ∈
      extract_links_from_xml
        (.ok ⟨"url", [("href", "/x")], some "https://y", []⟩) true
        "https://example.com/index.xml" none none) :=
  ⟨by decide, by decide,
    C10_both_channels.1 true "https://example.com/index.xml" none none _ _
      "href" "/x" "https://y"
      (by rw [treeElements]; exact List.mem_cons_self _ _)
      (by decide) (by decide) (by decide) (by decide) (by decide) (by decide)⟩

/-- Witness for `C7_no_match_empty`, at a two-element document with an
unrecognized attribute and unrecognized tags. -/
theorem C7_no_match_empty_witness :
    ((treeElements ⟨"entry", [("class", "x")], some "hello",
        [⟨"item", [], none, []⟩]⟩).all
      (noCandidate (linkAttributes none) (linkTags none))) = true ∧
    extract_links_from_xml
      (.ok ⟨"entry", [("class", "x")], some "hello",
        [⟨"item", [], none, []⟩]⟩) false "file.xml" none none = [] :=
  ⟨by decide,
    C7_no_match_empty false "file.xml" none none _ (by decide)⟩

/-- Witness for `C8_catch_all_total`, at the catch-all outcome. -/
theorem C8_catch_all_total_witness :
    extract_links_from_xml .otherError true "https://example.com/s.xml"
      none none = [] :=
  C8_catch_all_total .otherError true "https://example.com/s.xml" none none
    fun _ h => FetchOutcome.noConfusion h

end Crawler
